import Mathlib

/-!
Shallow embedding of the daw-control core (src/main/git-handler.js and
src/main/ipc-handlers.js).

External process execution (`child_process.exec`) is modelled by an
environment `ExecEnv` mapping a working directory and a command string to
an `ExecResult` (captured stdout, or a thrown error's message).  Filesystem
calls (`fs.stat`, `fs.readFile`, `fs.writeFile`, `fs.appendFile`) are
modelled by `FsEnv`.  Every operation returns, next to its JS return
value, the ordered list of externally visible effects (`Effect`) it
performed, so that "no command was executed" claims are statements about
that trace.  JS strings are Lean `String`s; `s.split(c)` is modelled by
`jsSplit` (single-character split, JS semantics), `s.trim()` by `jsTrim`,
`s.toLowerCase()` by `jsToLower`, `s.startsWith(p)` by `jsStartsWith`,
`s.substring(0, n)` by `String.take n`, and `s.substring(n)` by
`String.drop n`.
-/

/-- Result of running an external command: captured stdout on success, or
the thrown error's `message` when the process fails to spawn or exits
non-zero (`execPromise` rejects in both cases). -/
inductive ExecResult where
  | ok (stdout : String)
  | err (message : String)
deriving DecidableEq, Repr

/-- Environment answering external command executions: working directory
and command string to result. -/
def ExecEnv : Type := String → String → ExecResult

/-- Externally visible side effects performed by an operation, in order. -/
inductive Effect where
  | execCmd (cwd : String) (cmd : String)
  | fileWrite (path : String)
  | fileAppend (path : String)
deriving DecidableEq, Repr

/-- Model of Node's `path.join(a, b)` for plain segments. -/
def pathJoin (a b : String) : String := a ++ "/" ++ b

/-- JS `String.prototype.split` with a single-character separator, on the
underlying character list: `"" → [""]`, `"a|" → ["a", ""]`, etc. -/
def splitChar (sep : Char) : List Char → List (List Char)
  | [] => [[]]
  | c :: cs =>
    if c = sep then [] :: splitChar sep cs
    else
      match splitChar sep cs with
      | [] => [[c]]
      | w :: ws => (c :: w) :: ws

/-- JS `s.split(sep)` for a one-character `sep`. -/
def jsSplit (sep : Char) (s : String) : List String :=
  (splitChar sep s.data).map (fun l => String.mk l)

/-- JS `s.trim()`: strip leading and trailing whitespace. -/
def jsTrim (s : String) : String :=
  String.mk
    (((s.data.dropWhile Char.isWhitespace).reverse.dropWhile
      Char.isWhitespace).reverse)

/-- JS `s.toLowerCase()` for ASCII content. -/
def jsToLower (s : String) : String :=
  String.mk (s.data.map Char.toLower)

/-- JS `s.startsWith(pre)`. -/
def jsStartsWith (pre s : String) : Bool :=
  pre.data.isPrefixOf s.data

/-- Return value of `createCommit` / `initializeGitRepository`:
`{success: boolean, error?: string}`. -/
structure GitResult where
  success : Bool
  error : Option String
deriving DecidableEq, Repr

/-- `git add .` — the staging command of `createCommit`. -/
def addCmd : String := "git add ."

/-- The commit command of `createCommit`.  The message is spliced into the
shell command string by template-literal interpolation, exactly as in the
source: `git commit -m "<message>"`. -/
def commitCmd (message : String) : String :=
  "git commit -m \"" ++ message ++ "\""

/-- `createCommit(folderPath, message)` (git-handler.js:15-30): stage all
changes, then commit; any rejection is caught and reported as
`{success: false, error}`. -/
def createCommit (env : ExecEnv) (folderPath message : String) :
    GitResult × List Effect :=
  match env folderPath addCmd with
  | .err e => ({ success := false, error := some e },
      [.execCmd folderPath addCmd])
  | .ok _ =>
    match env folderPath (commitCmd message) with
    | .err e => ({ success := false, error := some e },
        [.execCmd folderPath addCmd, .execCmd folderPath (commitCmd message)])
    | .ok _ => ({ success := true, error := none },
        [.execCmd folderPath addCmd, .execCmd folderPath (commitCmd message)])

/-- Filesystem environment for `initializeGitRepository`.  `statIsDir p`
is `none` when `fs.stat p` throws (path absent), `some b` when it
succeeds with `isDirectory() = b`.  `readFile` yields the content or the
thrown error's message; `writeFile`/`appendFile` yield `some errMessage`
when they throw, `none` on success. -/
structure FsEnv where
  statIsDir : String → Option Bool
  readFile : String → Except String String
  writeFile : String → Option String
  appendFile : String → Option String

/-- Path of the gitignore template shipped next to the main-process code. -/
def gitignoreTemplate : String := "__dirname/text/gitignore.txt"

/-- Path of the gitattributes template. -/
def gitattributesTemplate : String := "__dirname/text/gitattributes.txt"

/-- Path of the git-config filter template. -/
def gitconfigTemplate : String := "__dirname/text/gitconfig.txt"

/-- `initializeGitRepository(folderPath)` (git-handler.js:37-99): if
`<folderPath>/.git` exists and is a directory, skip everything and return
success; otherwise `git init`, write `.gitignore` and `.gitattributes`
from templates, append the filter configuration to `.git/config`, and
create an initial commit.  Any thrown error is caught and reported as a
failure; dialog boxes are UI-only and not modelled. -/
def initializeGitRepository (env : ExecEnv) (fs : FsEnv)
    (folderPath : String) : GitResult × List Effect :=
  let gitDirPath := pathJoin folderPath ".git"
  let alreadyInitialized := fs.statIsDir gitDirPath = some true
  if alreadyInitialized then
    ({ success := true, error := none }, [])
  else
    match env folderPath "git init" with
    | .err e => ({ success := false, error := some e },
        [.execCmd folderPath "git init"])
    | .ok _ =>
      let t0 : List Effect := [.execCmd folderPath "git init"]
      match fs.readFile gitignoreTemplate with
      | .error e => ({ success := false, error := some e }, t0)
      | .ok _ =>
        let gitignorePath := pathJoin folderPath ".gitignore"
        match fs.writeFile gitignorePath with
        | some e => ({ success := false, error := some e },
            t0 ++ [.fileWrite gitignorePath])
        | none =>
          let t1 := t0 ++ [Effect.fileWrite gitignorePath]
          match fs.readFile gitattributesTemplate with
          | .error e => ({ success := false, error := some e }, t1)
          | .ok _ =>
            let gitattributesPath := pathJoin folderPath ".gitattributes"
            match fs.writeFile gitattributesPath with
            | some e => ({ success := false, error := some e },
                t1 ++ [.fileWrite gitattributesPath])
            | none =>
              let t2 := t1 ++ [Effect.fileWrite gitattributesPath]
              match fs.readFile gitconfigTemplate with
              | .error e => ({ success := false, error := some e }, t2)
              | .ok _ =>
                let gitConfigPath := pathJoin folderPath ".git/config"
                match fs.appendFile gitConfigPath with
                | some e => ({ success := false, error := some e },
                    t2 ++ [.fileAppend gitConfigPath])
                | none =>
                  let t3 := t2 ++ [Effect.fileAppend gitConfigPath]
                  let (commitResult, t4) :=
                    createCommit env folderPath "Initial commit"
                  if commitResult.success then
                    ({ success := true, error := none }, t3 ++ t4)
                  else
                    ({ success := false, error := commitResult.error },
                      t3 ++ t4)

/-- Return value of `checkWorkingDirectoryStatus`:
`{hasChanges: boolean, files?: string[]}`.  Note there is no error field:
the function's interface cannot report a failed status query. -/
structure StatusResult where
  hasChanges : Bool
  files : List String
deriving DecidableEq, Repr

/-- `git status --porcelain` — the status query command. -/
def statusCmd : String := "git status --porcelain"

/-- `checkWorkingDirectoryStatus(folderPath)` (git-handler.js:106-120):
run `git status --porcelain`; a non-empty trimmed stdout means dirty, each
line's first three characters (the porcelain status columns) are stripped
to obtain the file path.  A thrown error is caught, logged, and the
function returns `{hasChanges: false, files: []}`. -/
def checkWorkingDirectoryStatus (env : ExecEnv) (folderPath : String) :
    StatusResult × List Effect :=
  match env folderPath statusCmd with
  | .ok stdout =>
    if jsTrim stdout = "" then
      ({ hasChanges := false, files := [] },
        [.execCmd folderPath statusCmd])
    else
      ({ hasChanges := true,
         files :=
           (jsSplit '\n' (jsTrim stdout)).map (fun line => line.drop 3) },
        [.execCmd folderPath statusCmd])
  | .err _ =>
    ({ hasChanges := false, files := [] }, [.execCmd folderPath statusCmd])

/-- Return value of `restoreCommit`:
`{success: boolean, error?: string, uncommittedFiles?: string[]}`. -/
structure RestoreResult where
  success : Bool
  error : Option String
  uncommittedFiles : Option (List String)
deriving DecidableEq, Repr

/-- The checkout command of `restoreCommit`:
`git checkout <commitHash> -- .`. -/
def checkoutCmd (commitHash : String) : String :=
  "git checkout " ++ commitHash ++ " -- ."

/-- Error message returned when restoring over uncommitted changes. -/
def dirtyTreeMsg : String :=
  "You have uncommitted changes. Please commit or discard them first."

/-- `restoreCommit(folderPath, commitHash, autoCommit = true)`
(git-handler.js:129-163): check working-directory status; if dirty, fail
with the list of uncommitted files; otherwise check out the target's
files, and when `autoCommit` is set, create a trailing commit
`Restored to version <first 7 chars of hash>`, whose failure turns the
whole result into `{success: false, error: "Restored files but failed to
commit: ..."}`. -/
def restoreCommit (env : ExecEnv) (folderPath commitHash : String)
    (autoCommit : Bool := true) : RestoreResult × List Effect :=
  let st := checkWorkingDirectoryStatus env folderPath
  if st.1.hasChanges then
    ({ success := false, error := some dirtyTreeMsg,
       uncommittedFiles := some st.1.files }, st.2)
  else
    match env folderPath (checkoutCmd commitHash) with
    | .err e =>
      ({ success := false, error := some e, uncommittedFiles := none },
        st.2 ++ [.execCmd folderPath (checkoutCmd commitHash)])
    | .ok _ =>
      let t1 := st.2 ++ [Effect.execCmd folderPath (checkoutCmd commitHash)]
      if autoCommit then
        let shortHash := commitHash.take 7
        let commitMessage := "Restored to version " ++ shortHash
        let (commitResult, t2) := createCommit env folderPath commitMessage
        if commitResult.success then
          ({ success := true, error := none, uncommittedFiles := none },
            t1 ++ t2)
        else
          ({ success := false,
             error := some ("Restored files but failed to commit: "
               ++ commitResult.error.getD ""),
             uncommittedFiles := none }, t1 ++ t2)
      else
        ({ success := true, error := none, uncommittedFiles := none }, t1)

/-- One parsed history entry (git-handler.js:185-195).  Fields past the
hash come from array destructuring of the split line and are therefore
`undefined` (here `none`) when the line has too few delimiter-separated
parts.  The JS `new Date(date)` conversion is external; the raw date
field is kept. -/
structure Commit where
  hash : String
  shortHash : String
  author : Option String
  email : Option String
  date : Option String
  message : Option String
deriving DecidableEq, Repr

/-- Parse one `git log` output line by splitting on `|`
(git-handler.js:185-195). -/
def parseLogLine (line : String) : Commit :=
  let parts := jsSplit '|' line
  let hash := parts.getD 0 ""
  { hash := hash
    shortHash := hash.take 7
    author := parts.get? 1
    email := parts.get? 2
    date := parts.get? 3
    message := parts.get? 4 }

/-- The history query command with its five-field pretty format and
entry limit (git-handler.js:174-177). -/
def logCmd (limit : Nat) : String :=
  "git log --pretty=format:\"%H|%an|%ae|%ad|%s\" --date=iso -n "
    ++ toString limit

/-- Return value of `getCommitHistory`:
`{success: boolean, commits?: Array, error?: string}`. -/
structure HistoryResult where
  success : Bool
  error : Option String
  commits : List Commit
deriving DecidableEq, Repr

/-- `getCommitHistory(folderPath, limit = 50)` (git-handler.js:171-202):
run the formatted log; empty stdout means no commits yet and yields a
success with an empty list; otherwise split on newlines and parse each
record; a thrown error is caught and reported as a failure with an empty
commits list. -/
def getCommitHistory (env : ExecEnv) (folderPath : String)
    (limit : Nat := 50) : HistoryResult × List Effect :=
  match env folderPath (logCmd limit) with
  | .err e => ({ success := false, error := some e, commits := [] },
      [.execCmd folderPath (logCmd limit)])
  | .ok stdout =>
    if stdout = "" then
      ({ success := true, error := none, commits := [] },
        [.execCmd folderPath (logCmd limit)])
    else
      ({ success := true, error := none,
         commits := (jsSplit '\n' stdout).map parseLogLine },
        [.execCmd folderPath (logCmd limit)])

/-!
IPC layer (src/main/ipc-handlers.js).  The module-level
`currentProjectPath` variable is the `Option String` state threaded
through the handlers; `dialog.showOpenDialog` and `dialog.showMessageBox`
results are inputs.  `discardChanges` is imported by ipc-handlers.js but
is absent from git-handler.js's exports, so its body is not in the
source; the restore handler is parameterised over it (no claim depends on
that branch).
-/

/-- Model of Node's `path.extname` on a basename: the suffix from the
last `.`, empty when there is no `.` or the only `.` leads the name. -/
def extname (file : String) : String :=
  match (file.data.enum.filter (fun p => p.2 = '.')).getLast? with
  | none => ""
  | some (0, _) => ""
  | some (i, _) => String.mk (file.data.drop i)

/-- Inputs of the select-folder handler that come from the UI and the
filesystem: the folder picked in the open dialog (`none` when cancelled
or nothing selected) and the `fs.readdir` listing. -/
structure SelectFolderEnv where
  dialogResult : Option String
  readdir : String → Except String (List String)

/-- What the select-folder handler returns to the renderer: `null`, or
`{success: true, path}`, or `{success: false, error}`. -/
inductive SelectResult where
  | noSelection
  | opened (path : String)
  | failed (error : String)
deriving DecidableEq, Repr

/-- The `select-folder` handler (ipc-handlers.js:14-58): read the picked
folder, require a `.als` file, run `initializeGitRepository`, and only on
its success store the folder as the current project path.  Returns the
renderer response, the new `currentProjectPath`, and the effect trace. -/
def selectFolderHandler (env : ExecEnv) (fs : FsEnv)
    (senv : SelectFolderEnv) (st : Option String) :
    SelectResult × Option String × List Effect :=
  match senv.dialogResult with
  | none => (.noSelection, st, [])
  | some folderPath =>
    match senv.readdir folderPath with
    | .error e => (.failed e, st, [])
    | .ok files =>
      if files.any (fun file => jsToLower (extname file) = ".als") then
        let (gitResult, t) := initializeGitRepository env fs folderPath
        if gitResult.success then
          (.opened folderPath, some folderPath, t)
        else
          (.failed (gitResult.error.getD ""), st, t)
      else
        (.failed "No .als files found", st, [])

/-- The handler's message validation (ipc-handlers.js:69): JS
`!commitMessage || commitMessage.trim() === ''`, with `none` standing
for `null`/`undefined`. -/
def emptyMessageCheck : Option String → Bool
  | none => true
  | some m => m = "" || jsTrim m = ""

/-- The `create-version` handler (ipc-handlers.js:61-89): fail when no
project is open, fail when the message is empty or whitespace-only, and
only then invoke `createCommit`. -/
def createVersionHandler (env : ExecEnv) (st : Option String)
    (commitMessage : Option String) : GitResult × List Effect :=
  match st with
  | none => ({ success := false, error := some "No project initialized" }, [])
  | some currentProjectPath =>
    if emptyMessageCheck commitMessage then
      ({ success := false, error := some "Empty commit message" }, [])
    else
      createCommit env currentProjectPath (commitMessage.getD "")

/-- The `get-commits` handler (ipc-handlers.js:92-98): fail when no
project is open, otherwise delegate to `getCommitHistory` with its
default limit. -/
def getCommitsHandler (env : ExecEnv) (st : Option String) :
    HistoryResult × List Effect :=
  match st with
  | none =>
    ({ success := false, error := some "No project opened", commits := [] },
      [])
  | some currentProjectPath => getCommitHistory env currentProjectPath 50

/-- Auto-generated message for committing work in progress before a
restore (ipc-handlers.js:134). -/
def wipMsg (commitHash : String) : String :=
  "Work in progress before restoring to " ++ commitHash.take 7

/-- The `restore-commit` handler (ipc-handlers.js:101-159): fail when no
project is open; query status; when dirty, branch on the dialog response
(0 = Cancel, 1 = Discard Changes, 2 = Commit Changes); then call
`restoreCommit`.  `discardChanges` is the missing import described in the
section header. -/
def restoreHandler (env : ExecEnv)
    (discardChanges : String → GitResult × List Effect)
    (dialogResponse : Nat) (st : Option String) (commitHash : String) :
    RestoreResult × List Effect :=
  match st with
  | none =>
    ({ success := false, error := some "No project opened",
       uncommittedFiles := none }, [])
  | some currentProjectPath =>
    let status := checkWorkingDirectoryStatus env currentProjectPath
    if status.1.hasChanges then
      if dialogResponse = 0 then
        ({ success := false, error := some "Cancelled by user",
           uncommittedFiles := none }, status.2)
      else if dialogResponse = 1 then
        let (discardResult, t1) := discardChanges currentProjectPath
        if discardResult.success then
          let (r, t2) := restoreCommit env currentProjectPath commitHash
          (r, status.2 ++ t1 ++ t2)
        else
          ({ success := false, error := discardResult.error,
             uncommittedFiles := none }, status.2 ++ t1)
      else if dialogResponse = 2 then
        let (commitResult, t1) :=
          createCommit env currentProjectPath (wipMsg commitHash)
        if commitResult.success then
          let (r, t2) := restoreCommit env currentProjectPath commitHash
          (r, status.2 ++ t1 ++ t2)
        else
          ({ success := false, error := commitResult.error,
             uncommittedFiles := none }, status.2 ++ t1)
      else
        let (r, t2) := restoreCommit env currentProjectPath commitHash
        (r, status.2 ++ t2)
    else
      let (r, t2) := restoreCommit env currentProjectPath commitHash
      (r, status.2 ++ t2)

/-- A command mutates the working tree or history when it stages, commits,
checks out, or (re)initializes; `git status --porcelain` and `git log`
are read-only.  File writes and config appends always mutate. -/
def treeMutating : Effect → Bool
  | .execCmd _ cmd =>
    jsStartsWith "git add" cmd || jsStartsWith "git commit" cmd
      || jsStartsWith "git checkout" cmd || jsStartsWith "git init" cmd
  | .fileWrite _ => true
  | .fileAppend _ => true

/-!
Analysis-side definitions and concrete environments used to settle the
claims.
-/

/-- How a POSIX shell splits a command string into words: unquoted spaces
separate words, double quotes group characters (and are themselves
dropped).  This is the "structure of the executed command" that
`exec(...)` hands to `/bin/sh`; it is an analysis device, not part of
the source. -/
def shellTokenize : List Char → Bool → List Char → List (List Char)
  | [], _, acc => if acc.isEmpty then [] else [acc.reverse]
  | c :: cs, inQuote, acc =>
    if c = '"' then shellTokenize cs (!inQuote) acc
    else if c = ' ' && !inQuote then
      if acc.isEmpty then shellTokenize cs inQuote []
      else acc.reverse :: shellTokenize cs inQuote []
    else shellTokenize cs inQuote (c :: acc)

/-- Word structure of a full command string under shell splitting. -/
def shellTokens (s : String) : List String :=
  (shellTokenize s.data false []).map (fun l => String.mk l)

/-- Environment in which every command succeeds with empty stdout: a
clean working tree where every git invocation works. -/
def envClean : ExecEnv := fun _ _ => .ok ""

/-- Environment with a dirty working tree: the status query reports one
modified file, everything else succeeds. -/
def envDirty : ExecEnv := fun _ cmd =>
  if cmd = statusCmd then .ok " M song.als" else .ok ""

/-- Environment in which the status command itself fails (spawn error or
non-zero exit) while everything else succeeds. -/
def envStatusErr : ExecEnv := fun _ cmd =>
  if cmd = statusCmd then .err "spawn git ENOENT" else .ok ""

/-- Environment with a clean tree in which checkout and staging succeed
but every `git commit` invocation fails. -/
def envTrailingFail : ExecEnv := fun _ cmd =>
  if jsStartsWith "git commit" cmd then .err "commit failed" else .ok ""

/-- Filesystem environment of an already-initialized project:
`fs.stat` reports a directory at every queried path. -/
def fsAlready : FsEnv :=
  { statIsDir := fun _ => some true
    readFile := fun _ => .ok ""
    writeFile := fun _ => none
    appendFile := fun _ => none }

/-- A discard implementation that succeeds without visible effects; the
restore handler is only ever instantiated with it where the discard
branch is not taken. -/
def discardOk : String → GitResult × List Effect :=
  fun _ => ({ success := true, error := none }, [])

/-!
Helper lemmas.
-/

theorem splitChar_ne_nil (sep : Char) (l : List Char) :
    splitChar sep l ≠ [] := by
  induction l with
  | nil => simp [splitChar]
  | cons c cs ih =>
    simp only [splitChar]
    split
    · simp
    · cases h : splitChar sep cs with
      | nil => simp
      | cons w ws => simp

theorem sep_not_mem_of_mem_splitChar (sep : Char) (l : List Char) :
    ∀ w ∈ splitChar sep l, sep ∉ w := by
  induction l with
  | nil =>
    intro w hw
    simp only [splitChar, List.mem_singleton] at hw
    subst hw
    simp
  | cons c cs ih =>
    intro w hw
    simp only [splitChar] at hw
    by_cases hc : c = sep
    · rw [if_pos hc, List.mem_cons] at hw
      rcases hw with hw | hw
      · subst hw
        simp
      · exact ih w hw
    · rw [if_neg hc] at hw
      cases h : splitChar sep cs with
      | nil => exact absurd h (splitChar_ne_nil sep cs)
      | cons v vs =>
        rw [h, List.mem_cons] at hw
        rcases hw with hw | hw
        · subst hw
          rw [List.mem_cons]
          push_neg
          refine ⟨fun hse => hc hse.symm, ?_⟩
          exact ih v (h ▸ List.mem_cons_self v vs)
        · exact ih w (h ▸ List.mem_cons_of_mem v hw)

theorem splitChar_of_not_mem (sep : Char) (l : List Char) (h : sep ∉ l) :
    splitChar sep l = [l] := by
  induction l with
  | nil => rfl
  | cons c cs ih =>
    have hc : ¬c = sep := fun hc => h (hc ▸ List.mem_cons_self c cs)
    have hcs := ih (fun hm => h (List.mem_cons_of_mem c hm))
    simp only [splitChar]
    rw [if_neg hc, hcs]

theorem splitChar_append_sep (sep : Char) (a b : List Char) (h : sep ∉ a) :
    splitChar sep (a ++ sep :: b) = a :: splitChar sep b := by
  induction a with
  | nil => simp [splitChar]
  | cons c cs ih =>
    have hc : ¬c = sep := fun hc => h (hc ▸ List.mem_cons_self c cs)
    have hcs := ih (fun hm => h (List.mem_cons_of_mem c hm))
    show splitChar sep (c :: (cs ++ sep :: b)) = (c :: cs) :: splitChar sep b
    simp only [splitChar]
    rw [if_neg hc, hcs]

theorem two_le_splitChar_length (sep : Char) (l : List Char)
    (h : sep ∈ l) : 2 ≤ (splitChar sep l).length := by
  induction l with
  | nil => cases h
  | cons c cs ih =>
    simp only [splitChar]
    by_cases hc : c = sep
    · rw [if_pos hc]
      cases hcs : splitChar sep cs with
      | nil => exact absurd hcs (splitChar_ne_nil sep cs)
      | cons w ws => simp
    · rw [if_neg hc]
      rw [List.mem_cons] at h
      rcases h with h | h
      · exact absurd h.symm hc
      · cases hcs : splitChar sep cs with
        | nil => exact absurd hcs (splitChar_ne_nil sep cs)
        | cons w ws =>
          have := ih h
          rw [hcs] at this
          simpa using this

theorem String.mk_data (s : String) : String.mk s.data = s := by
  cases s
  rfl

theorem checkStatus_trace (env : ExecEnv) (p : String) :
    (checkWorkingDirectoryStatus env p).2 = [Effect.execCmd p statusCmd] := by
  unfold checkWorkingDirectoryStatus
  cases env p statusCmd with
  | ok stdout =>
    by_cases h : jsTrim stdout = "" <;> simp [h]
  | err e => rfl

theorem checkoutCmd_ne_statusCmd (h : String) : checkoutCmd h ≠ statusCmd := by
  intro he
  obtain ⟨l⟩ := h
  have h4 : (checkoutCmd (String.mk l)).data.get? 4 = statusCmd.data.get? 4 := by
    rw [he]
  have hc : (checkoutCmd (String.mk l)).data.get? 4 = some 'c' := rfl
  have hs : statusCmd.data.get? 4 = some 's' := rfl
  rw [hc, hs] at h4
  exact absurd h4 (by decide)

/-!
Claim theorems.
-/

/-- C3: lifecycle initialization is idempotent — when the `.git` marker
directory already exists under the folder, `initializeGitRepository`
returns success and performs no side effects: no `git init`, no
template-file writes, no config append, and no initial snapshot (the
effect trace is empty). -/
theorem initializeGitRepository_idempotent (env : ExecEnv) (fs : FsEnv)
    (folderPath : String)
    (h : fs.statIsDir (pathJoin folderPath ".git") = some true) :
    initializeGitRepository env fs folderPath =
      ({ success := true, error := none }, []) := by
  simp [initializeGitRepository, h]

/-- Witness for C3: a concrete already-initialized folder. -/
theorem initializeGitRepository_idempotent_witness :
    fsAlready.statIsDir (pathJoin "/proj" ".git") = some true ∧
    initializeGitRepository envClean fsAlready "/proj" =
      ({ success := true, error := none }, []) :=
  ⟨rfl, initializeGitRepository_idempotent envClean fsAlready "/proj" rfl⟩

/-- C4 counterexample: the status query does not surface a failed status
command — with an environment in which `git status --porcelain` fails,
`checkWorkingDirectoryStatus` returns exactly the same value as with an
environment in which the command succeeds on a genuinely clean tree, so
the failure is swallowed and indistinguishable from a clean tree. -/
theorem checkStatus_failure_indistinguishable_cex :
    checkWorkingDirectoryStatus envStatusErr "/proj" =
      checkWorkingDirectoryStatus envClean "/proj" ∧
    (checkWorkingDirectoryStatus envStatusErr "/proj").1 =
      { hasChanges := false, files := [] } := by
  constructor <;> decide

/-- C4 (amended): when the underlying status command fails, the caught
error is only logged; `checkWorkingDirectoryStatus` returns
`{hasChanges: false, files: []}`, the same value it returns for a clean
tree, so callers cannot distinguish a failed query from a clean tree. -/
theorem checkStatus_swallows_failure (env : ExecEnv) (p e : String)
    (h : env p statusCmd = .err e) :
    checkWorkingDirectoryStatus env p =
      ({ hasChanges := false, files := [] },
        [.execCmd p statusCmd]) := by
  simp [checkWorkingDirectoryStatus, h]

/-- Witness for the amended C4 at a concrete failing environment. -/
theorem checkStatus_swallows_failure_witness :
    envStatusErr "/proj" statusCmd = .err "spawn git ENOENT" ∧
    checkWorkingDirectoryStatus envStatusErr "/proj" =
      ({ hasChanges := false, files := [] },
        [.execCmd "/proj" statusCmd]) :=
  ⟨rfl, checkStatus_swallows_failure envStatusErr "/proj" "spawn git ENOENT" rfl⟩

/-- C5: the create-version operation rejects an empty or whitespace-only
message before any external process runs — the handler returns the
`Empty commit message` failure with an empty effect trace, so neither
`git add .` nor `git commit` is executed and the repository is
unchanged. -/
theorem createVersion_rejects_blank_message (env : ExecEnv)
    (p m : String) (hm : jsTrim m = "") :
    createVersionHandler env (some p) (some m) =
      ({ success := false, error := some "Empty commit message" }, []) := by
  simp [createVersionHandler, emptyMessageCheck, hm]

/-- Witness for C5: the whitespace-only message `"   "`. -/
theorem createVersion_rejects_blank_message_witness :
    jsTrim "   " = "" ∧
    createVersionHandler envClean (some "/proj") (some "   ") =
      ({ success := false, error := some "Empty commit message" }, []) :=
  ⟨by decide, createVersion_rejects_blank_message envClean "/proj" "   " (by decide)⟩

/-- C7: on a repository with zero commits — where the history command
yields empty output, the case the source's `No commits yet` branch
handles — `getCommitHistory` returns a success with an empty commits
list, not a failure. -/
theorem getCommitHistory_tolerates_zero_commits (env : ExecEnv)
    (p : String) (limit : Nat) (h : env p (logCmd limit) = .ok "") :
    getCommitHistory env p limit =
      ({ success := true, error := none, commits := [] },
        [.execCmd p (logCmd limit)]) := by
  simp [getCommitHistory, h]

/-- Witness for C7 at a concrete empty-history environment. -/
theorem getCommitHistory_tolerates_zero_commits_witness :
    envClean "/proj" (logCmd 50) = .ok "" ∧
    getCommitHistory envClean "/proj" 50 =
      ({ success := true, error := none, commits := [] },
        [.execCmd "/proj" (logCmd 50)]) :=
  ⟨rfl, getCommitHistory_tolerates_zero_commits envClean "/proj" 50 rfl⟩

/-- C1: `restoreCommit` queries working-directory status immediately
before checkout.  If the status query reports a dirty tree, it fails
returning the list of uncommitted files and the checkout command is not
among the executed effects; when the query reports a clean tree, the
effect trace starts with the status query immediately followed by the
checkout of the target's files. -/
theorem restoreCommit_status_gates_checkout (env : ExecEnv)
    (folderPath commitHash : String) (autoCommit : Bool) :
    ((checkWorkingDirectoryStatus env folderPath).1.hasChanges = true →
       restoreCommit env folderPath commitHash autoCommit =
         ({ success := false, error := some dirtyTreeMsg,
            uncommittedFiles :=
              some (checkWorkingDirectoryStatus env folderPath).1.files },
           [Effect.execCmd folderPath statusCmd]) ∧
       Effect.execCmd folderPath (checkoutCmd commitHash) ∉
         (restoreCommit env folderPath commitHash autoCommit).2) ∧
    ((checkWorkingDirectoryStatus env folderPath).1.hasChanges = false →
       ∃ rest, (restoreCommit env folderPath commitHash autoCommit).2 =
         Effect.execCmd folderPath statusCmd ::
           Effect.execCmd folderPath (checkoutCmd commitHash) :: rest) := by
  have ht := checkStatus_trace env folderPath
  constructor
  · intro hdirty
    have hr : restoreCommit env folderPath commitHash autoCommit =
        ({ success := false, error := some dirtyTreeMsg,
           uncommittedFiles :=
             some (checkWorkingDirectoryStatus env folderPath).1.files },
          [Effect.execCmd folderPath statusCmd]) := by
      simp [restoreCommit, hdirty, ht]
    refine ⟨hr, ?_⟩
    rw [hr]
    simp only [List.mem_singleton]
    intro hEq
    injection hEq with h1 h2
    exact checkoutCmd_ne_statusCmd commitHash h2
  · intro hclean
    unfold restoreCommit
    simp only [hclean, if_false, Bool.false_eq_true]
    cases henv : env folderPath (checkoutCmd commitHash) with
    | err e =>
      exact ⟨[], by simp [henv, ht]⟩
    | ok s =>
      cases autoCommit with
      | false => exact ⟨[], by simp [henv, ht]⟩
      | true =>
        refine ⟨(createCommit env folderPath
          ("Restored to version " ++ commitHash.take 7)).2, ?_⟩
        rcases hcc : createCommit env folderPath
          ("Restored to version " ++ commitHash.take 7) with ⟨cr, t2⟩
        by_cases hs : cr.success <;> simp [henv, ht, hcc, hs]

/-- Witness for C1: under the concrete dirty environment the restore
fails with the reported files and no checkout effect; under the clean
environment the trace starts with the status query then the checkout. -/
theorem restoreCommit_status_gates_checkout_witness :
    ((restoreCommit envDirty "/proj" "0123456789abc" true).1.success = false ∧
      Effect.execCmd "/proj" (checkoutCmd "0123456789abc") ∉
        (restoreCommit envDirty "/proj" "0123456789abc" true).2) ∧
    ∃ rest, (restoreCommit envClean "/proj" "0123456789abc" true).2 =
      Effect.execCmd "/proj" statusCmd ::
        Effect.execCmd "/proj" (checkoutCmd "0123456789abc") :: rest := by
  refine ⟨?_, (restoreCommit_status_gates_checkout envClean "/proj"
    "0123456789abc" true).2 (by decide)⟩
  have h := (restoreCommit_status_gates_checkout envDirty "/proj"
    "0123456789abc" true).1 (by decide)
  exact ⟨by rw [h.1], h.2⟩

/-- C2: when the tree is dirty and the caller's dialog choice is Cancel
(response 0), the restore handler returns the `Cancelled by user`
failure, the only executed effect is the read-only status query, and in
particular no tree-mutating git command runs and no snapshot is
created. -/
theorem restoreHandler_cancel_no_mutation (env : ExecEnv)
    (discardChanges : String → GitResult × List Effect)
    (p commitHash : String)
    (hdirty : (checkWorkingDirectoryStatus env p).1.hasChanges = true) :
    restoreHandler env discardChanges 0 (some p) commitHash =
      ({ success := false, error := some "Cancelled by user",
         uncommittedFiles := none }, [Effect.execCmd p statusCmd]) ∧
    ∀ e ∈ (restoreHandler env discardChanges 0 (some p) commitHash).2,
      treeMutating e = false := by
  have ht := checkStatus_trace env p
  have hr : restoreHandler env discardChanges 0 (some p) commitHash =
      ({ success := false, error := some "Cancelled by user",
         uncommittedFiles := none }, [Effect.execCmd p statusCmd]) := by
    simp [restoreHandler, hdirty, ht]
  refine ⟨hr, ?_⟩
  rw [hr]
  intro e he
  simp only [List.mem_singleton] at he
  subst he
  rfl

/-- Witness for C2 at the concrete dirty environment. -/
theorem restoreHandler_cancel_no_mutation_witness :
    restoreHandler envDirty discardOk 0 (some "/proj") "0123456789abc" =
      ({ success := false, error := some "Cancelled by user",
         uncommittedFiles := none }, [Effect.execCmd "/proj" statusCmd]) :=
  (restoreHandler_cancel_no_mutation envDirty discardOk "/proj"
    "0123456789abc" (by decide)).1

/-- C8 counterexample: in auto-commit mode with a concrete environment
where the checkout succeeds but the trailing commit fails, the overall
outcome of `restoreCommit` is `success = false` — a trailing-commit
failure does turn the overall outcome into a failure, contradicting the
claim that the outcome stays a success carrying a sub-flag. -/
theorem restoreCommit_trailing_fail_cex :
    envTrailingFail "/proj" (checkoutCmd "0123456789abc") = .ok "" ∧
    (restoreCommit envTrailingFail "/proj" "0123456789abc" true).1.success
      = false := by
  decide

/-- C8 (amended): in auto-commit mode, when the status query reports a
clean tree and the checkout succeeds, `restoreCommit` invokes snapshot
creation with the message `Restored to version <shortId>` where
`<shortId>` is the first 7 characters of the target identifier; if that
trailing commit succeeds the outcome is a success, and if it fails the
outcome is a failure whose error is `Restored files but failed to
commit: <underlying error>`, distinguishing partial success from other
failures. -/
theorem restoreCommit_autoCommit_outcome (env : ExecEnv)
    (p hsh s : String)
    (hclean : (checkWorkingDirectoryStatus env p).1.hasChanges = false)
    (hco : env p (checkoutCmd hsh) = .ok s) :
    (restoreCommit env p hsh true).2 =
      Effect.execCmd p statusCmd :: Effect.execCmd p (checkoutCmd hsh) ::
        (createCommit env p ("Restored to version " ++ hsh.take 7)).2 ∧
    (restoreCommit env p hsh true).1 =
      (if (createCommit env p
            ("Restored to version " ++ hsh.take 7)).1.success then
         { success := true, error := none, uncommittedFiles := none }
       else
         { success := false,
           error := some ("Restored files but failed to commit: "
             ++ (createCommit env p
                  ("Restored to version " ++ hsh.take 7)).1.error.getD ""),
           uncommittedFiles := none }) := by
  have ht := checkStatus_trace env p
  rcases hcc : createCommit env p ("Restored to version " ++ hsh.take 7)
    with ⟨cr, t2⟩
  by_cases hs : cr.success <;>
    simp [restoreCommit, hclean, hco, ht, hcc, hs]

/-- Witness for the amended C8: with the concrete environment whose
trailing commit fails, the restore reports the annotated failure. -/
theorem restoreCommit_autoCommit_outcome_witness :
    (restoreCommit envTrailingFail "/proj" "0123456789abc" true).1 =
      { success := false,
        error := some "Restored files but failed to commit: commit failed",
        uncommittedFiles := none } := by
  have h := restoreCommit_autoCommit_outcome envTrailingFail "/proj"
    "0123456789abc" "" (by decide) (by decide)
  rw [h.2]
  decide

/-- C6 counterexample: snapshot creation does not pass the message as a
discrete argument — for the message `a" b "c` (which contains quote
characters) the shell word structure of the command string built by the
source is not `git commit -m <message>`: the message does not survive as
the single fourth word. -/
theorem commitCmd_quote_breaks_structure_cex :
    shellTokens (commitCmd "a\" b \"c") ≠
      ["git", "commit", "-m", "a\" b \"c"] := by
  decide

/-- C6 (amended): `createCommit` splices the message into the shell
command string by string interpolation (`git commit -m "<message>"`), so
quote-free space-free content survives as one argument, but message
content containing quote characters alters the word structure of the
executed command (here `a" b "c` yields three separate words). -/
theorem commitCmd_splices_message :
    (∀ message : String,
       (commitCmd message).data =
         "git commit -m \"".data ++ message.data ++ ['\"']) ∧
    shellTokens (commitCmd "mixdown") = ["git", "commit", "-m", "mixdown"] ∧
    shellTokens (commitCmd "a\" b \"c") =
      ["git", "commit", "-m", "a", "b", "c"] := by
  refine ⟨?_, by decide, by decide⟩
  intro message
  simp [commitCmd, String.data_append]

/-- C9: a log record whose four metadata fields are delimiter-free is
split on `|` into exactly five fields parsed as identifier, author name,
author email, date and message, with the short identifier equal to the
first 7 characters of the identifier; and whenever the message itself
contains the `|` delimiter, the parsed message differs from the original
message (the record is corrupted). -/
theorem getCommitHistory_parses_five_fields
    (hash author email date msg line : String)
    (hh : '|' ∉ hash.data) (ha : '|' ∉ author.data)
    (he : '|' ∉ email.data) (hd : '|' ∉ date.data)
    (hline : line =
      hash ++ "|" ++ author ++ "|" ++ email ++ "|" ++ date ++ "|" ++ msg) :
    ('|' ∉ msg.data →
       jsSplit '|' line = [hash, author, email, date, msg] ∧
       parseLogLine line =
         { hash := hash, shortHash := hash.take 7, author := some author,
           email := some email, date := some date, message := some msg }) ∧
    ('|' ∈ msg.data → (parseLogLine line).message ≠ some msg) := by
  subst hline
  have hdata :
      (hash ++ "|" ++ author ++ "|" ++ email ++ "|" ++ date ++ "|"
        ++ msg).data =
      hash.data ++ '|' :: (author.data ++ '|' :: (email.data ++ '|' ::
        (date.data ++ '|' :: msg.data))) := by
    simp [String.data_append]
  have hsplit :
      splitChar '|' (hash.data ++ '|' :: (author.data ++ '|' ::
        (email.data ++ '|' :: (date.data ++ '|' :: msg.data)))) =
      hash.data :: author.data :: email.data :: date.data ::
        splitChar '|' msg.data := by
    rw [splitChar_append_sep _ _ _ hh, splitChar_append_sep _ _ _ ha,
      splitChar_append_sep _ _ _ he, splitChar_append_sep _ _ _ hd]
  constructor
  · intro hm
    have h5 : jsSplit '|'
        (hash ++ "|" ++ author ++ "|" ++ email ++ "|" ++ date ++ "|"
          ++ msg) = [hash, author, email, date, msg] := by
      unfold jsSplit
      rw [hdata, hsplit, splitChar_of_not_mem _ _ hm]
      simp [String.mk_data]
    refine ⟨h5, ?_⟩
    unfold parseLogLine
    rw [h5]
    rfl
  · intro hm
    have hmk : ∀ w ws, splitChar '|' msg.data = w :: ws →
        (parseLogLine (hash ++ "|" ++ author ++ "|" ++ email ++ "|"
          ++ date ++ "|" ++ msg)).message = some (String.mk w) := by
      intro w ws hms
      unfold parseLogLine jsSplit
      rw [hdata, hsplit, hms]
      rfl
    cases hms : splitChar '|' msg.data with
    | nil => exact absurd hms (splitChar_ne_nil _ _)
    | cons w ws =>
      rw [hmk w ws hms]
      intro hEq
      have hw : String.mk w = msg := by injection hEq
      have hnw : '|' ∉ w :=
        sep_not_mem_of_mem_splitChar '|' msg.data w
          (hms ▸ List.mem_cons_self w ws)
      apply hnw
      have hwd : w = msg.data := by
        have := congrArg String.data hw
        simpa using this
      rw [hwd]
      exact hm

/-- Witness for C9: a concrete well-formed record parses into its five
fields, and a concrete record whose message contains `|` yields a parsed
message different from the original. -/
theorem getCommitHistory_parses_five_fields_witness :
    parseLogLine "abcdefgh0123|Ann Lee|ann@mail.com|2025-01-01 10:00:00 +0100|tweak bass" =
      { hash := "abcdefgh0123", shortHash := "abcdefg",
        author := some "Ann Lee", email := some "ann@mail.com",
        date := some "2025-01-01 10:00:00 +0100",
        message := some "tweak bass" } ∧
    (parseLogLine "abcdefgh0123|Ann|a@b|2025|mix|final").message ≠
      some "mix|final" := by
  constructor
  · have h := ((getCommitHistory_parses_five_fields "abcdefgh0123"
      "Ann Lee" "ann@mail.com" "2025-01-01 10:00:00 +0100" "tweak bass"
      "abcdefgh0123|Ann Lee|ann@mail.com|2025-01-01 10:00:00 +0100|tweak bass"
      (by decide) (by decide) (by decide) (by decide) (by decide)).1
      (by decide)).2
    rw [h]
    decide
  · exact (getCommitHistory_parses_five_fields "abcdefgh0123" "Ann" "a@b"
      "2025" "mix|final" "abcdefgh0123|Ann|a@b|2025|mix|final"
      (by decide) (by decide) (by decide) (by decide) (by decide)).2
      (by decide)

/-- C10: with no project initialized (handle `none`), the create-version,
get-commits and restore-commit handlers each return their no-project
failure with an empty effect trace, so no git command is executed; and
the select-folder handler either leaves the handle unchanged or sets it
to a folder for which `initializeGitRepository` returned success. -/
theorem handlers_require_initialized_project (env : ExecEnv) (fs : FsEnv)
    (senv : SelectFolderEnv)
    (discardChanges : String → GitResult × List Effect)
    (resp : Nat) (m : Option String) (commitHash : String)
    (st : Option String) :
    createVersionHandler env none m =
      ({ success := false, error := some "No project initialized" }, []) ∧
    getCommitsHandler env none =
      ({ success := false, error := some "No project opened",
         commits := [] }, []) ∧
    restoreHandler env discardChanges resp none commitHash =
      ({ success := false, error := some "No project opened",
         uncommittedFiles := none }, []) ∧
    ((selectFolderHandler env fs senv st).2.1 = st ∨
      ∃ p, (selectFolderHandler env fs senv st).2.1 = some p ∧
        (initializeGitRepository env fs p).1.success = true ∧
        (selectFolderHandler env fs senv st).1 = .opened p) := by
  refine ⟨rfl, rfl, rfl, ?_⟩
  unfold selectFolderHandler
  cases hdr : senv.dialogResult with
  | none => exact Or.inl (by simp)
  | some folderPath =>
    cases hrd : senv.readdir folderPath with
    | error e => exact Or.inl (by simp [hrd])
    | ok files =>
      rcases hgr : initializeGitRepository env fs folderPath with ⟨g, t⟩
      by_cases hals :
          (files.any fun file => jsToLower (extname file) = ".als") = true
      · by_cases hgs : g.success = true
        · exact Or.inr ⟨folderPath, by simp [hrd, hals, hgr, hgs],
            by rw [hgr]; exact hgs, by simp [hrd, hals, hgr, hgs]⟩
        · exact Or.inl (by simp [hrd, hals, hgr, hgs])
      · exact Or.inl (by simp [hrd, hals])
